import Mathlib

/-!
# Interactive particles

A shallow embedding of `src/main.js`: the shape generators, `calculateShape`,
`switchShape`, `updateViewSize`, the hand callback `onResults` and the particle
loop of `animate`.

Modelling conventions.

* JavaScript numbers are modelled as real numbers: `+ - * /`, comparisons,
  `Math.sqrt`, `Math.hypot`, `Math.sin`, `Math.cos`, `Math.acos`, `Math.tan` are
  the exact real operations.  Rounding (also the `Float32Array` storage of the
  position buffer) is not modelled.
* `Math.random()` is modelled by a stream `rnd : ℕ → ℝ` together with a counter
  of the draws made so far; the `n`-th call returns `rnd n`.
* The mutable globals (`state`, `positions`, `velocities`, the cursor mesh) are
  the fields of `State`, passed explicitly.  Rendering, DOM updates and timers
  are left out.
-/

namespace InteractiveParticles

noncomputable section

/-- A point or vector with three coordinates (`{x, y, z}` objects and
`THREE.Vector3`). -/
@[ext]
structure Vec3 where
  x : ℝ
  y : ℝ
  z : ℝ

namespace Vec3

/-- Squared Euclidean length. -/
def normSq (a : Vec3) : ℝ := a.x * a.x + a.y * a.y + a.z * a.z

/-- Euclidean length. -/
def norm (a : Vec3) : ℝ := Real.sqrt a.normSq

/-- Componentwise difference. -/
def sub (a b : Vec3) : Vec3 := ⟨a.x - b.x, a.y - b.y, a.z - b.z⟩

/-- Componentwise sum. -/
def add (a b : Vec3) : Vec3 := ⟨a.x + b.x, a.y + b.y, a.z + b.z⟩

/-- Multiplication by a scalar. -/
def smul (c : ℝ) (a : Vec3) : Vec3 := ⟨c * a.x, c * a.y, c * a.z⟩

/-- Dot product. -/
def dot (a b : Vec3) : ℝ := a.x * b.x + a.y * b.y + a.z * b.z

/-- The method `THREE.Vector3.lerp(v, alpha)`: each component `c` becomes
`c + (v.c - c) * alpha`. -/
def lerp (a v : Vec3) (alpha : ℝ) : Vec3 :=
  ⟨a.x + (v.x - a.x) * alpha, a.y + (v.y - a.y) * alpha, a.z + (v.z - a.z) * alpha⟩

end Vec3

/-! ## Configuration (`CONFIG`, lines 7-13) -/

namespace CONFIG

/-- Number of particles. -/
def particleCount : ℕ := 20000

/-- Radius around the cursor inside which particles feel the hand. -/
def interactionRadius : ℝ := 25

/-- Palette, one colour per shape. -/
def colors : List ℕ := [0x00ffff, 0xff00ff, 0xffff00, 0x00ff00, 0xff3333]

/-- Camera distance. -/
def cameraZ : ℝ := 50

end CONFIG

/-- The constant `state.shapeNames`. -/
def shapeNames : List String := ["Sphere", "Heart", "Saturn", "Torus", "DNA Helix"]

/-! ## Shape generators (`Shapes`, lines 92-151)

Each stochastic generator takes the random stream and the number of draws made
so far, and returns the point together with the new number of draws. -/

namespace Shapes

/-- The generator `Shapes.sphere` (lines 93-104). -/
def sphere (rnd : ℕ → ℝ) (k : ℕ) : Vec3 × ℕ :=
  let r : ℝ := 20
  let u := rnd k
  let v := rnd (k + 1)
  let theta := 2 * Real.pi * u
  let phi := Real.arccos (2 * v - 1)
  (⟨r * Real.sin phi * Real.cos theta,
    r * Real.sin phi * Real.sin theta,
    r * Real.cos phi⟩, k + 2)

/-- The generator `Shapes.heart` (lines 105-112). -/
def heart (rnd : ℕ → ℝ) (k : ℕ) : Vec3 × ℕ :=
  let t := rnd k * Real.pi * 2
  let scale : ℝ := 1.3
  let x := 16 * Real.sin t ^ 3
  let y := 13 * Real.cos t - 5 * Real.cos (2 * t) - 2 * Real.cos (3 * t) - Real.cos (4 * t)
  let z := (rnd (k + 1) - 0.5) * 8
  (⟨x * scale, y * scale, z⟩, k + 2)

/-- The generator `Shapes.saturn` (lines 113-127). -/
def saturn (rnd : ℕ → ℝ) (k : ℕ) : Vec3 × ℕ :=
  let r := rnd k
  if r > 0.4 then
    let p := sphere rnd (k + 1)
    (⟨p.1.x * 0.5, p.1.y * 0.5, p.1.z * 0.5⟩, p.2)
  else
    let angle := rnd (k + 1) * Real.pi * 2
    let dist := 16 + rnd (k + 2) * 12
    (⟨Real.cos angle * dist,
      (rnd (k + 3) - 0.5) * 0.5,
      Real.sin angle * dist⟩, k + 4)

/-- The generator `Shapes.torus` (lines 128-138). -/
def torus (rnd : ℕ → ℝ) (k : ℕ) : Vec3 × ℕ :=
  let u := rnd k * Real.pi * 2
  let v := rnd (k + 1) * Real.pi * 2
  let R : ℝ := 18
  let r : ℝ := 5
  (⟨(R + r * Real.cos v) * Real.cos u,
    (R + r * Real.cos v) * Real.sin u,
    r * Real.sin v⟩, k + 2)

/-- The generator `Shapes.helix` (lines 139-150); it makes no random draw. -/
def helix (i : ℕ) : Vec3 :=
  let t : ℝ := i * 0.05
  let r : ℝ := 10
  let h : ℝ := 45
  let strand : ℝ := if i % 2 = 0 then 0 else Real.pi
  let y : ℝ := (((i % CONFIG.particleCount : ℕ) : ℝ) / CONFIG.particleCount) * h - (h / 2)
  ⟨r * Real.cos (t + strand), y, r * Real.sin (t + strand)⟩

end Shapes

/-- The table lookup `Object.values(Shapes)[index % 5]` of `calculateShape`
(line 155).  The fifth entry is `Shapes.helix` called without an index; the
source never calls it for the indices `0..4` (index `4` takes the branch with
the explicit index), and without an index its coordinates are `NaN`, which has
no real counterpart: the entry is given as the helix point of index `0`. -/
def generator (index : ℕ) (rnd : ℕ → ℝ) (k : ℕ) : Vec3 × ℕ :=
  match index % 5 with
  | 0 => Shapes.sphere rnd k
  | 1 => Shapes.heart rnd k
  | 2 => Shapes.saturn rnd k
  | 3 => Shapes.torus rnd k
  | _ => (Shapes.helix 0, k)

/-- The loop of `calculateShape` (lines 156-160): `n` iterations are left, the
loop variable is `i`, and `k` draws have been made. -/
def calculateShapeLoop (rnd : ℕ → ℝ) (index : ℕ) : ℕ → ℕ → ℕ → List Vec3 × ℕ
  | 0, _, k => ([], k)
  | n + 1, i, k =>
    let pk := if index = 4 then (Shapes.helix i, k) else generator index rnd k
    let rest := calculateShapeLoop rnd index n (i + 1) pk.2
    (pk.1 :: rest.1, rest.2)

/-- The function `calculateShape` (lines 153-162). -/
def calculateShape (rnd : ℕ → ℝ) (index : ℕ) (k : ℕ) : List Vec3 × ℕ :=
  calculateShapeLoop rnd index CONFIG.particleCount 0 k

/-! ## State -/

/-- The field `state.viewSize`. -/
structure ViewSize where
  width : ℝ
  height : ℝ

/-- The camera fields read by `updateViewSize`: `camera.fov` (degrees),
`camera.aspect` and `camera.position.z`. -/
structure Camera where
  fov : ℝ
  aspect : ℝ
  positionZ : ℝ

/-- The mutable globals of the program: the object `state` (lines 16-23), the
position buffer and `velocities` (lines 52-54), the flat particle colour, the
cursor mesh's visibility and scale, the number of `Math.random()` draws made so
far, and a counter of the calls of `switchShape` (not in the source; it records
the calls so that they can be counted). -/
structure State where
  currentShapeIndex : ℕ
  isPinching : Bool
  handPosition : Vec3
  targetPositions : List Vec3
  viewSize : ViewSize
  positions : List Vec3
  velocities : List Vec3
  particleColor : ℕ
  cursorVisible : Bool
  cursorScale : ℝ
  rotationY : ℝ
  draws : ℕ
  switchCalls : ℕ

/-- The function `THREE.MathUtils.degToRad`. -/
def degToRad (degrees : ℝ) : ℝ := degrees * (Real.pi / 180)

/-- The function `updateViewSize` (lines 168-174). -/
def updateViewSize (camera : Camera) (s : State) : State :=
  let vFOV := degToRad camera.fov
  let height := 2 * Real.tan (vFOV / 2) * camera.positionZ
  let width := height * camera.aspect
  { s with viewSize := ⟨width, height⟩ }

/-- The function `switchShape` (lines 177-203): advance the shape index,
regenerate the targets, recolour all particles. -/
def switchShape (rnd : ℕ → ℝ) (s : State) : State :=
  let idx := (s.currentShapeIndex + 1) % shapeNames.length
  let targets := calculateShape rnd idx s.draws
  { s with
    currentShapeIndex := idx
    targetPositions := targets.1
    draws := targets.2
    particleColor := CONFIG.colors.getD (idx % CONFIG.colors.length) 0
    switchCalls := s.switchCalls + 1 }

/-- The loop that fills `positions` and `velocities` at start-up (lines 59-69):
three draws per particle. -/
def initParticlesLoop (rnd : ℕ → ℝ) : ℕ → ℕ → List Vec3 × List Vec3 × ℕ
  | 0, k => ([], [], k)
  | n + 1, k =>
    let p : Vec3 := ⟨(rnd k - 0.5) * 100, (rnd (k + 1) - 0.5) * 100, (rnd (k + 2) - 0.5) * 100⟩
    let rest := initParticlesLoop rnd n (k + 3)
    (p :: rest.1, ⟨0, 0, 0⟩ :: rest.2.1, rest.2.2)

/-- The program state after the top-level statements that precede the first
callback: `state` (lines 16-23), the particle buffers (lines 59-69),
`calculateShape(0)` (line 165) and `updateViewSize()` (line 175). -/
def State.init (rnd : ℕ → ℝ) (camera : Camera) : State :=
  let parts := initParticlesLoop rnd CONFIG.particleCount 0
  let targets := calculateShape rnd 0 parts.2.2
  updateViewSize camera
    { currentShapeIndex := 0
      isPinching := false
      handPosition := ⟨1000, 1000, 1000⟩
      targetPositions := targets.1
      viewSize := ⟨1, 1⟩
      positions := parts.1
      velocities := parts.2.1
      particleColor := CONFIG.colors.getD 0 0
      cursorVisible := true
      cursorScale := 1
      rotationY := 0
      draws := targets.2
      switchCalls := 0 }

/-! ## Hand input (`onResults`, lines 213-261) -/

/-- A hand landmark in normalised image coordinates. -/
structure Landmark where
  x : ℝ
  y : ℝ

/-- The two landmarks of `results.multiHandLandmarks[0]` that the program
reads: number 4 (thumb tip) and number 8 (index fingertip). -/
structure Hand where
  thumbTip : Landmark
  indexTip : Landmark

/-- The world-space point `new THREE.Vector3(x, y, 0)` computed from the index
fingertip (lines 226-230). -/
def mapIndexTip (viewSize : ViewSize) (indexTip : Landmark) : Vec3 :=
  let x := (0.5 - indexTip.x) * viewSize.width
  let y := (0.5 - indexTip.y) * viewSize.height
  ⟨x, y, 0⟩

/-- The pinch distance `Math.hypot(thumbTip.x - indexTip.x, thumbTip.y - indexTip.y)`
(line 238). -/
def pinchDistance (landmarks : Hand) : ℝ :=
  Real.sqrt ((landmarks.thumbTip.x - landmarks.indexTip.x) ^ 2
    + (landmarks.thumbTip.y - landmarks.indexTip.y) ^ 2)

/-- The callback `onResults` (lines 213-261); `results` is `none` when no hand
was detected. -/
def onResults (rnd : ℕ → ℝ) (s : State) (results : Option Hand) : State :=
  match results with
  | some landmarks =>
    let indexTip := landmarks.indexTip
    let s1 : State :=
      { s with
        handPosition := s.handPosition.lerp (mapIndexTip s.viewSize indexTip) 0.3
        cursorVisible := true }
    let distance := pinchDistance landmarks
    let isPinchingNow : Bool := decide (distance < 0.05)
    if isPinchingNow && !s1.isPinching then
      let s2 := switchShape rnd { s1 with isPinching := true }
      { s2 with cursorScale := 0.5 }
    else if !isPinchingNow && s1.isPinching then
      { s1 with isPinching := false, cursorScale := 1 }
    else
      s1
  | none =>
    { s with handPosition := ⟨1000, 1000, 1000⟩, cursorVisible := false }

/-- Feed a finite sequence of hand frames to `onResults`, one call per frame. -/
def runFrames (rnd : ℕ → ℝ) (s : State) (frames : List Hand) : State :=
  frames.foldl (fun st landmarks => onResults rnd st (some landmarks)) s

/-! ## Particle loop (`animate`, lines 294-383) -/

/-- The hand position in the cloud's frame as `animate` computes it
(lines 301, 309-313): `(localHandX, localHandY, localHandZ)`. -/
def localHand (time : ℝ) (handPosition : Vec3) : Vec3 :=
  let rotationY := time * 0.05
  let cosR := Real.cos (-rotationY)
  let sinR := Real.sin (-rotationY)
  let localHandX := handPosition.x * cosR - handPosition.z * sinR
  let localHandZ := handPosition.x * sinR + handPosition.z * cosR
  let localHandY := handPosition.y
  ⟨localHandX, localHandY, localHandZ⟩

/-- The body of the particle loop of `animate` (lines 316-378) for one particle
with position `p`, target `t` and velocity `v`; `lh` is the local hand position
and `k` the number of draws made so far.  Returns the new position, the new
velocity and the new number of draws. -/
def stepParticle (rnd : ℕ → ℝ) (lh : Vec3) (isPinching : Bool) (p t v : Vec3) (k : ℕ) :
    Vec3 × Vec3 × ℕ :=
  let vx := v.x + (t.x - p.x) * 0.03
  let vy := v.y + (t.y - p.y) * 0.03
  let vz := v.z + (t.z - p.z) * 0.03
  let dx := p.x - lh.x
  let dy := p.y - lh.y
  let dz := p.z - lh.z
  let distSq := dx * dx + dy * dy + dz * dz
  let vk : Vec3 × ℕ :=
    if distSq < CONFIG.interactionRadius * CONFIG.interactionRadius then
      let dist := Real.sqrt distSq
      let force := (CONFIG.interactionRadius - dist) / CONFIG.interactionRadius
      if isPinching then
        let repel := force * 2.0
        (⟨vx + dx * repel, vy + dy * repel, vz + dz * repel⟩, k)
      else
        let attract := force * 8.0
        (⟨vx - dx * attract * 0.1 + (rnd k - 0.5) * 0.5,
          vy - dy * attract * 0.1 + (rnd (k + 1) - 0.5) * 0.5,
          vz - dz * attract * 0.1 + (rnd (k + 2) - 0.5) * 0.5⟩, k + 3)
    else
      (⟨vx, vy, vz⟩, k)
  let w : Vec3 := ⟨vk.1.x * 0.92, vk.1.y * 0.92, vk.1.z * 0.92⟩
  (⟨p.x + w.x, p.y + w.y, p.z + w.z⟩, w, vk.2)

/-- The particle loop of `animate` (line 315): the parallel arrays `positions`,
`state.targetPositions` and `velocities` (all of length `particleCount`) are
traversed together.  Returns the new positions, velocities and draw count. -/
def animateLoop (rnd : ℕ → ℝ) (lh : Vec3) (isPinching : Bool) :
    List Vec3 → List Vec3 → List Vec3 → ℕ → List Vec3 × List Vec3 × ℕ
  | p :: ps, t :: ts, v :: vs, k =>
    let r := stepParticle rnd lh isPinching p t v k
    let rest := animateLoop rnd lh isPinching ps ts vs r.2.2
    (r.1 :: rest.1, r.2.1 :: rest.2.1, rest.2.2)
  | _, _, _, k => ([], [], k)

/-- One frame of `animate` (lines 294-383) at elapsed time `time`. -/
def animate (rnd : ℕ → ℝ) (time : ℝ) (s : State) : State :=
  let lh := localHand time s.handPosition
  let r := animateLoop rnd lh s.isPinching s.positions s.targetPositions s.velocities s.draws
  { s with
    rotationY := time * 0.05
    positions := r.1
    velocities := r.2.1
    draws := r.2.2 }

/-! ## Notions used to state the properties -/

/-- Number of `false → true` transitions in a sequence of pinch samples, the
sample before the first one being `prev`. -/
def risingEdges : Bool → List Bool → ℕ
  | _, [] => 0
  | prev, b :: bs => (if b && !prev then 1 else 0) + risingEdges b bs

/-- The pinch sample of a frame: whether its pinch distance is below `0.05`. -/
def pinchSample (landmarks : Hand) : Bool := decide (pinchDistance landmarks < 0.05)

/-- A hand frame whose thumb tip lies `d` to the right of the index fingertip
at the image centre, so that its pinch distance is `|d|`. -/
def frameOfDistance (d : ℝ) : Hand := ⟨⟨0.5 + d, 0.5⟩, ⟨0.5, 0.5⟩⟩

/-- Rotation of a point about the Y axis by the angle `a` the way three.js
rotates an object with `rotation.y = a` (`Matrix4.makeRotationY`):
`x ↦ x cos a + z sin a`, `y ↦ y`, `z ↦ -x sin a + z cos a`. -/
def rotateY (a : ℝ) (q : Vec3) : Vec3 :=
  ⟨q.x * Real.cos a + q.z * Real.sin a, q.y, -q.x * Real.sin a + q.z * Real.cos a⟩

/-- Radial component of the velocity `v` of a particle at `p` with respect to
the cursor `c`: the projection of `v` onto the vector from `c` to `p`. -/
def radialComponent (c p v : Vec3) : ℝ := v.dot (p.sub c) / (p.sub c).norm

/-- Distance of a point from the Y axis. -/
def axisDistance (q : Vec3) : ℝ := Real.sqrt (q.x * q.x + q.z * q.z)

/-- A point of Saturn's flat ring: distance from the Y axis in `[16, 28)` and
height at most `0.25` in absolute value. -/
def IsRingPoint (q : Vec3) : Prop :=
  16 ≤ axisDistance q ∧ axisDistance q < 28 ∧ |q.y| ≤ 0.25

/-- A point of Saturn's core: on the sphere of radius `10` (a sphere sample
scaled by `0.5`). -/
def IsCorePoint (q : Vec3) : Prop := q.norm = 10

/-- All draws of the stream lie in `[0, 1)`, as `Math.random()` guarantees. -/
def UnitDraws (rnd : ℕ → ℝ) : Prop := ∀ n, 0 ≤ rnd n ∧ rnd n < 1

/-- The values `r` in `[0, 1)` of the branch draw for which `Shapes.saturn`
returns a ring point, whatever the later draws are. -/
def saturnRingDraws : Set ℝ :=
  {r | 0 ≤ r ∧ r < 1 ∧
    ∀ (rnd : ℕ → ℝ) (k : ℕ), UnitDraws rnd → rnd k = r → IsRingPoint (Shapes.saturn rnd k).1}

/-- The values `r` in `[0, 1)` of the branch draw for which `Shapes.saturn`
returns a core point, whatever the later draws are. -/
def saturnCoreDraws : Set ℝ :=
  {r | 0 ≤ r ∧ r < 1 ∧
    ∀ (rnd : ℕ → ℝ) (k : ℕ), UnitDraws rnd → rnd k = r → IsCorePoint (Shapes.saturn rnd k).1}

/-- The turbulence vector that the attract branch of `stepParticle` adds when
`k` draws have been made. -/
def jitter (rnd : ℕ → ℝ) (k : ℕ) : Vec3 :=
  ⟨(rnd k - 0.5) * 0.5, (rnd (k + 1) - 0.5) * 0.5, (rnd (k + 2) - 0.5) * 0.5⟩

/-! ## Sample inputs -/

/-- The stream whose every draw is `0.5`; the turbulence it yields is zero. -/
def halfDraws : ℕ → ℝ := fun _ => 0.5

/-- The camera of the program (lines 29-30) on a window of aspect `16 / 9`. -/
def sampleCamera : Camera := ⟨75, 16 / 9, CONFIG.cameraZ⟩

/-- A state in which every particle rests at its target `(20, 0, 0)` and no hand
is present. -/
def restState : State :=
  { currentShapeIndex := 0
    isPinching := false
    handPosition := ⟨1000, 1000, 1000⟩
    targetPositions := List.replicate CONFIG.particleCount ⟨20, 0, 0⟩
    viewSize := ⟨1, 1⟩
    positions := List.replicate CONFIG.particleCount ⟨20, 0, 0⟩
    velocities := List.replicate CONFIG.particleCount ⟨0, 0, 0⟩
    particleColor := 0x00ffff
    cursorVisible := false
    cursorScale := 1
    rotationY := 0
    draws := 0
    switchCalls := 0 }

/-! ## Auxiliary lemmas -/

theorem switchShape_index (rnd : ℕ → ℝ) (s : State) :
    (switchShape rnd s).currentShapeIndex = (s.currentShapeIndex + 1) % 5 := by
  simp [switchShape, shapeNames]

theorem switchShape_iterate_index (rnd : ℕ → ℝ) (n : ℕ) (s : State) :
    ((switchShape rnd)^[n] s).currentShapeIndex = (s.currentShapeIndex + n) % 5
      ∨ (n = 0 ∧ ((switchShape rnd)^[n] s).currentShapeIndex = s.currentShapeIndex) := by
  induction n with
  | zero => right; simp
  | succ m ih =>
    left
    rw [Function.iterate_succ_apply', switchShape_index]
    rcases ih with h | ⟨h0, h⟩
    · rw [h]; omega
    · rw [h]; omega

theorem shapeNames_injective (i j : ℕ) (hi : i < 5) (hj : j < 5)
    (h : shapeNames[i]? = shapeNames[j]?) : i = j := by
  interval_cases i <;> interval_cases j <;> simp [shapeNames] at h <;> rfl

theorem onResults_hand (rnd : ℕ → ℝ) (s : State) (f : Hand) :
    (onResults rnd s (some f)).switchCalls
        = s.switchCalls + (if pinchSample f && !s.isPinching then 1 else 0) ∧
    (onResults rnd s (some f)).isPinching = pinchSample f := by
  by_cases hp : pinchDistance f < 0.05 <;> cases hs : s.isPinching <;>
    simp [onResults, switchShape, pinchSample, hp, hs]

theorem runFrames_cons (rnd : ℕ → ℝ) (s : State) (f : Hand) (frames : List Hand) :
    runFrames rnd s (f :: frames) = runFrames rnd (onResults rnd s (some f)) frames := by
  simp [runFrames]

theorem runFrames_switchCalls (rnd : ℕ → ℝ) (frames : List Hand) (s : State) :
    (runFrames rnd s frames).switchCalls
        = s.switchCalls + risingEdges s.isPinching (frames.map pinchSample) ∧
    (runFrames rnd s frames).isPinching
        = ((frames.map pinchSample).getLast?).getD s.isPinching := by
  induction frames generalizing s with
  | nil => simp [runFrames, risingEdges]
  | cons f fs ih =>
    rw [runFrames_cons]
    obtain ⟨h1, h2⟩ := ih (onResults rnd s (some f))
    obtain ⟨g1, g2⟩ := onResults_hand rnd s f
    refine ⟨?_, ?_⟩
    · rw [h1, g1, g2]
      simp only [List.map_cons, risingEdges]
      omega
    · rw [h2, g2]
      cases fs with
      | nil => simp
      | cons f2 fs2 => simp [List.getLast?_cons]

theorem pinchDistance_frameOfDistance (d : ℝ) : pinchDistance (frameOfDistance d) = |d| := by
  simp [pinchDistance, frameOfDistance, Real.sqrt_sq_eq_abs]

theorem sphere_normSq (rnd : ℕ → ℝ) (k : ℕ) : (Shapes.sphere rnd k).1.normSq = 400 := by
  simp only [Shapes.sphere, Vec3.normSq]
  have h1 := Real.sin_sq_add_cos_sq (Real.arccos (2 * rnd (k + 1) - 1))
  have h2 := Real.sin_sq_add_cos_sq (2 * Real.pi * rnd k)
  linear_combination (400 * Real.sin (Real.arccos (2 * rnd (k + 1) - 1)) ^ 2) * h2 + 400 * h1

theorem sqrt_400 : Real.sqrt 400 = 20 := by
  rw [show (400 : ℝ) = 20 ^ 2 by norm_num]
  exact Real.sqrt_sq (by norm_num)

theorem sqrt_100 : Real.sqrt 100 = 10 := by
  rw [show (100 : ℝ) = 10 ^ 2 by norm_num]
  exact Real.sqrt_sq (by norm_num)

theorem calculateShapeLoop_length (rnd : ℕ → ℝ) (index n i k : ℕ) :
    (calculateShapeLoop rnd index n i k).1.length = n := by
  induction n generalizing i k with
  | zero => simp [calculateShapeLoop]
  | succ m ih => simp [calculateShapeLoop, ih]

theorem calculateShapeLoop_sphere (rnd : ℕ → ℝ) (n i k : ℕ) :
    ∀ q ∈ (calculateShapeLoop rnd 0 n i k).1, q.normSq = 400 := by
  induction n generalizing i k with
  | zero => simp [calculateShapeLoop]
  | succ m ih =>
    intro q hq
    simp only [calculateShapeLoop, List.mem_cons] at hq
    rcases hq with hq | hq
    · rw [hq]
      simpa [generator] using sphere_normSq rnd k
    · exact ih _ _ q hq

theorem calculateShapeLoop_helix (rnd1 rnd2 : ℕ → ℝ) (n i k1 k2 : ℕ) :
    (calculateShapeLoop rnd1 4 n i k1).1 = (calculateShapeLoop rnd2 4 n i k2).1 ∧
    (calculateShapeLoop rnd1 4 n i k1).2 = k1 := by
  induction n generalizing i k1 k2 with
  | zero => simp [calculateShapeLoop]
  | succ m ih =>
    simp only [calculateShapeLoop, if_true]
    exact ⟨by rw [(ih (i + 1) k1 k2).1], (ih (i + 1) k1 k2).2⟩

theorem helix_y (i : ℕ) (hi : i < CONFIG.particleCount) :
    (Shapes.helix i).y = 45 * (i : ℝ) / (CONFIG.particleCount : ℝ) - 22.5 := by
  simp only [Shapes.helix, Nat.mod_eq_of_lt hi]
  ring

theorem helix_axis (i : ℕ) :
    (Shapes.helix i).x * (Shapes.helix i).x + (Shapes.helix i).z * (Shapes.helix i).z = 100 := by
  simp only [Shapes.helix]
  have h := Real.sin_sq_add_cos_sq ((i : ℝ) * 0.05 + if i % 2 = 0 then 0 else Real.pi)
  linear_combination 100 * h

theorem onResults_handPosition (rnd : ℕ → ℝ) (s : State) (f : Hand) :
    (onResults rnd s (some f)).handPosition
      = s.handPosition.lerp (mapIndexTip s.viewSize f.indexTip) 0.3 := by
  by_cases hp : pinchDistance f < 0.05 <;> cases hs : s.isPinching <;>
    simp [onResults, switchShape, hp, hs]

theorem localHand_eq_rotateY (time : ℝ) (h : Vec3) :
    localHand time h = rotateY (time * 0.05) h := by
  simp only [localHand, rotateY, Real.cos_neg, Real.sin_neg]
  ext <;> simp

theorem radius_sq : CONFIG.interactionRadius * CONFIG.interactionRadius = 625 := by
  norm_num [CONFIG.interactionRadius]

theorem norm_sub_sq (p c : Vec3) :
    (p.sub c).norm ^ 2
      = (p.x - c.x) * (p.x - c.x) + (p.y - c.y) * (p.y - c.y) + (p.z - c.z) * (p.z - c.z) := by
  rw [Vec3.norm, Real.sq_sqrt]
  · simp [Vec3.normSq, Vec3.sub]
  · simp only [Vec3.normSq, Vec3.sub]
    linarith [mul_self_nonneg (p.x - c.x), mul_self_nonneg (p.y - c.y),
      mul_self_nonneg (p.z - c.z)]

theorem stepParticle_far (rnd : ℕ → ℝ) (c : Vec3) (pinch : Bool) (p g v : Vec3) (k : ℕ)
    (hfar : 625 ≤ (p.sub c).norm ^ 2) :
    stepParticle rnd c pinch p g v k
      = (p.add (Vec3.smul 0.92 (v.add (Vec3.smul 0.03 (g.sub p)))),
         Vec3.smul 0.92 (v.add (Vec3.smul 0.03 (g.sub p))), k) := by
  rw [norm_sub_sq] at hfar
  unfold stepParticle
  dsimp only
  rw [radius_sq, if_neg (not_lt.mpr hfar)]
  simp only [Vec3.add, Vec3.smul, Vec3.sub]
  refine Prod.ext ?_ (Prod.ext ?_ rfl) <;> ext <;> simp <;> ring

theorem stepParticle_repel (rnd : ℕ → ℝ) (c : Vec3) (p g v : Vec3) (k : ℕ)
    (hnear : (p.sub c).norm ^ 2 < 625) :
    (stepParticle rnd c true p g v k).2.1
      = Vec3.smul 0.92 ((v.add (Vec3.smul 0.03 (g.sub p))).add
          (Vec3.smul (2.0 * ((25 - (p.sub c).norm) / 25)) (p.sub c))) := by
  have hn := hnear
  rw [norm_sub_sq] at hn
  unfold stepParticle
  dsimp only
  rw [radius_sq, if_pos hn]
  simp only [Vec3.add, Vec3.smul, Vec3.sub, Vec3.norm, Vec3.normSq, CONFIG.interactionRadius,
    if_true]
  ext <;> simp <;> ring

theorem stepParticle_attract (rnd : ℕ → ℝ) (c : Vec3) (p g v : Vec3) (k : ℕ)
    (hnear : (p.sub c).norm ^ 2 < 625) :
    (stepParticle rnd c false p g v k).2.1
      = Vec3.smul 0.92 (((v.add (Vec3.smul 0.03 (g.sub p))).sub
          (Vec3.smul (0.8 * ((25 - (p.sub c).norm) / 25)) (p.sub c))).add (jitter rnd k)) := by
  have hn := hnear
  rw [norm_sub_sq] at hn
  unfold stepParticle
  dsimp only
  rw [radius_sq, if_pos hn]
  simp only [Vec3.add, Vec3.smul, Vec3.sub, Vec3.norm, Vec3.normSq, CONFIG.interactionRadius,
    jitter]
  ext <;> simp <;> ring

theorem stepParticle_position (rnd : ℕ → ℝ) (c : Vec3) (pinch : Bool) (p g v : Vec3) (k : ℕ) :
    (stepParticle rnd c pinch p g v k).1 = p.add (stepParticle rnd c pinch p g v k).2.1 := by
  simp [stepParticle, Vec3.add]

theorem jitter_range (rnd : ℕ → ℝ) (k : ℕ) (hdraws : UnitDraws rnd) :
    (-0.25 ≤ (jitter rnd k).x ∧ (jitter rnd k).x < 0.25) ∧
    (-0.25 ≤ (jitter rnd k).y ∧ (jitter rnd k).y < 0.25) ∧
    (-0.25 ≤ (jitter rnd k).z ∧ (jitter rnd k).z < 0.25) := by
  have h0 := hdraws k
  have h1 := hdraws (k + 1)
  have h2 := hdraws (k + 2)
  simp only [jitter]
  refine ⟨⟨?_, ?_⟩, ⟨?_, ?_⟩, ⟨?_, ?_⟩⟩ <;> linarith [h0.1, h0.2, h1.1, h1.2, h2.1, h2.2]

theorem animateLoop_getElem (rnd : ℕ → ℝ) (lh : Vec3) (pinch : Bool) :
    ∀ (ps ts vs : List Vec3) (k i : ℕ) (p t v : Vec3),
      ps[i]? = some p → ts[i]? = some t → vs[i]? = some v →
      ∃ k2, (animateLoop rnd lh pinch ps ts vs k).1[i]?
              = some (stepParticle rnd lh pinch p t v k2).1 ∧
            (animateLoop rnd lh pinch ps ts vs k).2.1[i]?
              = some (stepParticle rnd lh pinch p t v k2).2.1 := by
  intro ps
  induction ps with
  | nil => intro ts vs k i p t v hp; simp at hp
  | cons p0 ps ih =>
    intro ts vs k i p t v hp ht hv
    cases ts with
    | nil => simp at ht
    | cons t0 ts =>
      cases vs with
      | nil => simp at hv
      | cons v0 vs =>
        cases i with
        | zero =>
          simp only [List.getElem?_cons_zero, Option.some.injEq] at hp ht hv
          subst hp ht hv
          exact ⟨k, by simp [animateLoop]⟩
        | succ j =>
          simp only [List.getElem?_cons_succ] at hp ht hv
          obtain ⟨k2, h1, h2⟩ :=
            ih ts vs (stepParticle rnd lh pinch p0 t0 v0 k).2.2 j p t v hp ht hv
          exact ⟨k2, by simpa [animateLoop] using h1, by simpa [animateLoop] using h2⟩

theorem dot_sub_self (p c : Vec3) : (p.sub c).dot (p.sub c) = (p.sub c).norm ^ 2 := by
  rw [norm_sub_sq]
  simp [Vec3.dot, Vec3.sub]

theorem radial_attract (rnd : ℕ → ℝ) (k : ℕ) (c p g v : Vec3)
    (hjit : jitter rnd k = ⟨0, 0, 0⟩) (hpos : 0 < (p.sub c).norm)
    (hd : (p.sub c).norm < 25) :
    radialComponent c p (stepParticle rnd c false p g v k).2.1
      = radialComponent c p (Vec3.smul 0.92 (v.add (Vec3.smul 0.03 (g.sub p))))
        - 0.92 * 0.8 * ((25 - (p.sub c).norm) / 25) * (p.sub c).norm := by
  have hnear : (p.sub c).norm ^ 2 < 625 := by nlinarith
  have hdot := dot_sub_self p c
  rw [stepParticle_attract rnd c p g v k hnear, hjit]
  simp only [radialComponent]
  have hne : (p.sub c).norm ≠ 0 := ne_of_gt hpos
  rw [eq_sub_iff_add_eq, div_add' _ _ _ hne, div_left_inj' hne]
  generalize (p.sub c).norm = d at hdot ⊢
  simp only [Vec3.dot, Vec3.smul, Vec3.add, Vec3.sub] at hdot ⊢
  linear_combination (-(0.92 * 0.8 * ((25 - d) / 25))) * hdot

theorem radial_repel (rnd : ℕ → ℝ) (k : ℕ) (c p g v : Vec3)
    (hpos : 0 < (p.sub c).norm) (hd : (p.sub c).norm < 25) :
    radialComponent c p (stepParticle rnd c true p g v k).2.1
      = radialComponent c p (Vec3.smul 0.92 (v.add (Vec3.smul 0.03 (g.sub p))))
        + 0.92 * 2.0 * ((25 - (p.sub c).norm) / 25) * (p.sub c).norm := by
  have hnear : (p.sub c).norm ^ 2 < 625 := by nlinarith
  have hdot := dot_sub_self p c
  rw [stepParticle_repel rnd c p g v k hnear]
  simp only [radialComponent]
  have hne : (p.sub c).norm ≠ 0 := ne_of_gt hpos
  rw [div_add' _ _ _ hne, div_left_inj' hne]
  generalize (p.sub c).norm = d at hdot ⊢
  simp only [Vec3.dot, Vec3.smul, Vec3.add, Vec3.sub] at hdot ⊢
  linear_combination (0.92 * 2.0 * ((25 - d) / 25)) * hdot

theorem radial_rest (c p : Vec3) :
    radialComponent c p (Vec3.smul 0.92 (Vec3.add ⟨0, 0, 0⟩ (Vec3.smul 0.03 (p.sub p)))) = 0 ∧
    radialComponent c p ⟨0, 0, 0⟩ = 0 := by
  simp [radialComponent, Vec3.dot, Vec3.smul, Vec3.add, Vec3.sub]

theorem unit_norm : (Vec3.sub ⟨1, 0, 0⟩ ⟨0, 0, 0⟩).norm = 1 := by
  simp [Vec3.norm, Vec3.normSq, Vec3.sub]

theorem jitter_halfDraws (k : ℕ) : jitter halfDraws k = ⟨0, 0, 0⟩ := by
  simp [jitter, halfDraws]

theorem saturn_core_normSq (rnd : ℕ → ℝ) (k : ℕ) (h : 0.4 < rnd k) :
    (Shapes.saturn rnd k).1.normSq = 100 := by
  have hs := sphere_normSq rnd (k + 1)
  unfold Shapes.saturn
  dsimp only
  rw [if_pos h]
  simp only [Vec3.normSq] at hs ⊢
  linear_combination (1 / 4 : ℝ) * hs

theorem saturn_ring_point (rnd : ℕ → ℝ) (k : ℕ) (h : rnd k ≤ 0.4) :
    (Shapes.saturn rnd k).1
      = ⟨Real.cos (rnd (k + 1) * Real.pi * 2) * (16 + rnd (k + 2) * 12),
         (rnd (k + 3) - 0.5) * 0.5,
         Real.sin (rnd (k + 1) * Real.pi * 2) * (16 + rnd (k + 2) * 12)⟩ := by
  unfold Shapes.saturn
  dsimp only
  rw [if_neg (not_lt.mpr h)]

theorem saturn_ring_axisDistance (rnd : ℕ → ℝ) (k : ℕ) (h : rnd k ≤ 0.4)
    (h2 : 0 ≤ rnd (k + 2)) :
    axisDistance (Shapes.saturn rnd k).1 = 16 + rnd (k + 2) * 12 := by
  rw [saturn_ring_point rnd k h, axisDistance]
  have hc := Real.sin_sq_add_cos_sq (rnd (k + 1) * Real.pi * 2)
  have hsq : Real.cos (rnd (k + 1) * Real.pi * 2) * (16 + rnd (k + 2) * 12)
        * (Real.cos (rnd (k + 1) * Real.pi * 2) * (16 + rnd (k + 2) * 12))
      + Real.sin (rnd (k + 1) * Real.pi * 2) * (16 + rnd (k + 2) * 12)
        * (Real.sin (rnd (k + 1) * Real.pi * 2) * (16 + rnd (k + 2) * 12))
      = (16 + rnd (k + 2) * 12) ^ 2 := by
    linear_combination ((16 + rnd (k + 2) * 12) ^ 2) * hc
  rw [hsq]
  exact Real.sqrt_sq (by linarith)

theorem axisDistance_le_norm (q : Vec3) : axisDistance q ≤ q.norm := by
  apply Real.sqrt_le_sqrt
  simp only [Vec3.normSq]
  linarith [mul_self_nonneg q.y]

theorem saturnRingDraws_eq : saturnRingDraws = Set.Icc 0 0.4 := by
  ext r
  simp only [saturnRingDraws, Set.mem_setOf_eq, Set.mem_Icc]
  constructor
  · rintro ⟨h0, h1, hall⟩
    refine ⟨h0, ?_⟩
    by_contra hgt
    have hgt2 : (0.4 : ℝ) < r := lt_of_not_ge hgt
    have hring := hall (fun _ => r) 0 (fun _ => ⟨h0, h1⟩) rfl
    have hcore := saturn_core_normSq (fun _ => r) 0 hgt2
    have hle := axisDistance_le_norm (Shapes.saturn (fun _ => r) 0).1
    rw [Vec3.norm, hcore, sqrt_100] at hle
    have := hring.1
    linarith
  · rintro ⟨h0, h4⟩
    refine ⟨h0, by linarith, ?_⟩
    intro rnd k hu hk
    have hr : rnd k ≤ 0.4 := by rw [hk]; exact h4
    have h2 := hu (k + 2)
    have h3 := hu (k + 3)
    refine ⟨?_, ?_, ?_⟩
    · rw [saturn_ring_axisDistance rnd k hr h2.1]; linarith
    · rw [saturn_ring_axisDistance rnd k hr h2.1]; linarith
    · rw [saturn_ring_point rnd k hr]
      simp only
      rw [abs_le]
      constructor <;> linarith [h3.1, h3.2]

theorem saturnCoreDraws_eq : saturnCoreDraws = Set.Ioo 0.4 1 := by
  ext r
  simp only [saturnCoreDraws, Set.mem_setOf_eq, Set.mem_Ioo]
  constructor
  · rintro ⟨h0, h1, hall⟩
    refine ⟨?_, h1⟩
    by_contra hgt
    have hle4 : r ≤ 0.4 := not_lt.mp hgt
    have hcore := hall (fun _ => r) 0 (fun _ => ⟨h0, h1⟩) rfl
    have hax := saturn_ring_axisDistance (fun _ => r) 0 hle4 h0
    have hle := axisDistance_le_norm (Shapes.saturn (fun _ => r) 0).1
    rw [IsCorePoint] at hcore
    rw [hcore, hax] at hle
    nlinarith
  · rintro ⟨h4, h1⟩
    refine ⟨by linarith, h1, ?_⟩
    intro rnd k _ hk
    have hr : 0.4 < rnd k := by rw [hk]; exact h4
    rw [IsCorePoint, Vec3.norm, saturn_core_normSq rnd k hr, sqrt_100]

theorem saturnRingDraws_volume : MeasureTheory.volume saturnRingDraws = ENNReal.ofReal 0.4 := by
  rw [saturnRingDraws_eq, Real.volume_Icc]
  norm_num

theorem saturnCoreDraws_volume : MeasureTheory.volume saturnCoreDraws = ENNReal.ofReal 0.6 := by
  rw [saturnCoreDraws_eq, Real.volume_Ioo]
  norm_num

theorem unitDraws_halfDraws : UnitDraws halfDraws := by
  intro n
  norm_num [halfDraws]

theorem sample_frames_distances :
    List.map pinchDistance (List.map frameOfDistance [0.08, 0.03, 0.03, 0.08])
      = [0.08, 0.03, 0.03, 0.08] := by
  simp only [List.map_cons, List.map_nil, pinchDistance_frameOfDistance]
  norm_num [abs_of_pos]

theorem restState_far :
    CONFIG.interactionRadius
      < (Vec3.sub ⟨20, 0, 0⟩ (localHand 0 restState.handPosition)).norm := by
  have hl : localHand 0 restState.handPosition = ⟨1000, 1000, 1000⟩ := by
    simp [localHand, restState]
  rw [hl, Vec3.norm, CONFIG.interactionRadius, Real.lt_sqrt (by norm_num)]
  norm_num [Vec3.normSq, Vec3.sub]

theorem restState_getElem (i : ℕ) (hi : i < CONFIG.particleCount) :
    restState.positions[i]? = some ⟨20, 0, 0⟩ ∧
    restState.targetPositions[i]? = some ⟨20, 0, 0⟩ ∧
    restState.velocities[i]? = some ⟨0, 0, 0⟩ := by
  simp [restState, List.getElem?_replicate, hi]

/-! ## Properties -/

/-- C1. Pinch edge detection in `onResults`.  On every hand frame, from every
state, `switchShape` is called exactly once when the frame's pinch distance is
below `0.05` and the stored flag `isPinching` is false, and not at all when the
flag is already true or the distance is at least `0.05`; the flag then holds
whether the distance was below `0.05`.  Hence a sequence of frames fed from a
state with `isPinching = false` causes as many calls as it has false-to-true
transitions.  For the distances `[0.08, 0.03, 0.03, 0.08]` exactly one call
happens, on the second frame, and `isPinching` is false at the end. -/
theorem pinch_edge_detection (rnd : ℕ → ℝ) (s : State) (frames : List Hand)
    (h0 : s.isPinching = false) :
    (∀ (st : State) (f : Hand),
      (pinchDistance f < 0.05 → st.isPinching = false →
        (onResults rnd st (some f)).switchCalls = st.switchCalls + 1) ∧
      (st.isPinching = true ∨ 0.05 ≤ pinchDistance f →
        (onResults rnd st (some f)).switchCalls = st.switchCalls) ∧
      ((onResults rnd st (some f)).isPinching = true ↔ pinchDistance f < 0.05)) ∧
    (runFrames rnd s frames).switchCalls
      = s.switchCalls + risingEdges false (frames.map pinchSample) ∧
    (frames.map pinchDistance = [0.08, 0.03, 0.03, 0.08] →
      (runFrames rnd s (frames.take 1)).switchCalls = s.switchCalls ∧
      (runFrames rnd s (frames.take 2)).switchCalls = s.switchCalls + 1 ∧
      (runFrames rnd s (frames.take 3)).switchCalls = s.switchCalls + 1 ∧
      (runFrames rnd s frames).switchCalls = s.switchCalls + 1 ∧
      (runFrames rnd s frames).isPinching = false) := by
  refine ⟨?_, ?_, ?_⟩
  · intro st f
    obtain ⟨g1, g2⟩ := onResults_hand rnd st f
    refine ⟨?_, ?_, ?_⟩
    · intro hp hs
      rw [g1]; simp [pinchSample, hp, hs]
    · intro h
      rw [g1]
      rcases h with hs | hp
      · simp [hs]
      · simp [pinchSample, not_lt.mpr hp]
    · rw [g2]; simp [pinchSample]
  · rw [(runFrames_switchCalls rnd frames s).1, h0]
  · intro hd
    rcases frames with _ | ⟨f1, _ | ⟨f2, _ | ⟨f3, _ | ⟨f4, _ | ⟨f5, fs⟩⟩⟩⟩⟩ <;>
      simp only [List.map_cons, List.map_nil, List.cons.injEq, and_true, and_false,
        reduceCtorEq] at hd
    · obtain ⟨d1, d2, d3, d4⟩ := hd
      have p1 : pinchSample f1 = false := by rw [pinchSample, d1]; norm_num
      have p2 : pinchSample f2 = true := by rw [pinchSample, d2]; norm_num
      have p3 : pinchSample f3 = true := by rw [pinchSample, d3]; norm_num
      have p4 : pinchSample f4 = false := by rw [pinchSample, d4]; norm_num
      refine ⟨?_, ?_, ?_, ?_, ?_⟩
      · rw [(runFrames_switchCalls rnd _ s).1, h0]; simp [risingEdges, p1]
      · rw [(runFrames_switchCalls rnd _ s).1, h0]; simp [risingEdges, p1, p2]
      · rw [(runFrames_switchCalls rnd _ s).1, h0]; simp [risingEdges, p1, p2, p3]
      · rw [(runFrames_switchCalls rnd _ s).1, h0]; simp [risingEdges, p1, p2, p3, p4]
      · rw [(runFrames_switchCalls rnd _ s).2]; simp [p4]

/-- C2. `switchShape` replaces the shape index `k` by `(k + 1) mod 5`; from
index `0` the successive indices are `1, 2, 3, 4, 0`; and from every index in
`0..4`, after exactly five calls the index and the active shape name are the
initial ones, while after one to four calls both differ from the initial ones. -/
theorem switchShape_cycle (rnd : ℕ → ℝ) (s : State) (hk : s.currentShapeIndex < 5) :
    (switchShape rnd s).currentShapeIndex = (s.currentShapeIndex + 1) % 5 ∧
    (s.currentShapeIndex = 0 →
      (List.range 6).map (fun n => ((switchShape rnd)^[n] s).currentShapeIndex)
        = [0, 1, 2, 3, 4, 0]) ∧
    ((switchShape rnd)^[5] s).currentShapeIndex = s.currentShapeIndex ∧
    shapeNames[((switchShape rnd)^[5] s).currentShapeIndex]? = shapeNames[s.currentShapeIndex]? ∧
    ∀ n, 1 ≤ n → n ≤ 4 →
      ((switchShape rnd)^[n] s).currentShapeIndex ≠ s.currentShapeIndex ∧
      shapeNames[((switchShape rnd)^[n] s).currentShapeIndex]? ≠ shapeNames[s.currentShapeIndex]? := by
  have it : ∀ n, 1 ≤ n →
      ((switchShape rnd)^[n] s).currentShapeIndex = (s.currentShapeIndex + n) % 5 := by
    intro n hn
    rcases switchShape_iterate_index rnd n s with h | ⟨h0, _⟩
    · exact h
    · omega
  have h5 : ((switchShape rnd)^[5] s).currentShapeIndex = s.currentShapeIndex := by
    rw [it 5 (by norm_num)]; omega
  refine ⟨switchShape_index rnd s, ?_, h5, by rw [h5], ?_⟩
  · intro h0
    simp only [List.range, List.range.loop, List.map]
    rw [it 1 (by norm_num), it 2 (by norm_num), it 3 (by norm_num), it 4 (by norm_num),
      it 5 (by norm_num), h0]
    simp [h0]
  · intro n h1 h4
    have hne : ((switchShape rnd)^[n] s).currentShapeIndex ≠ s.currentShapeIndex := by
      rw [it n h1]; omega
    refine ⟨hne, fun hname => hne ?_⟩
    refine shapeNames_injective _ _ ?_ hk hname
    rw [it n h1]; omega

/-- C8. For all draws in `[0, 1)` the point returned by `Shapes.sphere`
satisfies `x^2 + y^2 + z^2 = 400`, that is, it has Euclidean norm `20`; and
`calculateShape(0)` produces `particleCount` targets, each of norm `20`. -/
theorem sphere_targets_norm (rnd : ℕ → ℝ) (k : ℕ) (_hdraws : UnitDraws rnd) :
    (Shapes.sphere rnd k).1.x ^ 2 + (Shapes.sphere rnd k).1.y ^ 2
      + (Shapes.sphere rnd k).1.z ^ 2 = 400 ∧
    (Shapes.sphere rnd k).1.norm = 20 ∧
    (calculateShape rnd 0 k).1.length = CONFIG.particleCount ∧
    ∀ q ∈ (calculateShape rnd 0 k).1, q.norm = 20 := by
  refine ⟨?_, ?_, calculateShapeLoop_length _ _ _ _ _, ?_⟩
  · have h := sphere_normSq rnd k
    simp only [Vec3.normSq] at h
    linear_combination h
  · rw [Vec3.norm, sphere_normSq, sqrt_400]
  · intro q hq
    rw [Vec3.norm, calculateShapeLoop_sphere rnd _ _ _ q hq, sqrt_400]

/-- C9. `Shapes.helix` makes no random draw: the helix targets are the same for
every random stream and leave the draw counter unchanged.  For every index
`i < particleCount` the height is `45 * i / particleCount - 22.5`; it is
non-decreasing in the index, equals `-22.5` at index `0` and lies in
`[-22.5, 22.5]`; and every helix point is at distance `10` from the Y axis. -/
theorem helix_deterministic_linear (i : ℕ) (hi : i < CONFIG.particleCount) :
    (∀ (rnd1 rnd2 : ℕ → ℝ) (k1 k2 : ℕ),
      (calculateShape rnd1 4 k1).1 = (calculateShape rnd2 4 k2).1 ∧
      (calculateShape rnd1 4 k1).2 = k1) ∧
    (Shapes.helix i).y = 45 * (i : ℝ) / (CONFIG.particleCount : ℝ) - 22.5 ∧
    (∀ j, j ≤ i → (Shapes.helix j).y ≤ (Shapes.helix i).y) ∧
    (Shapes.helix 0).y = -22.5 ∧
    -22.5 ≤ (Shapes.helix i).y ∧ (Shapes.helix i).y ≤ 22.5 ∧
    axisDistance (Shapes.helix i) = 10 := by
  have hN : (0 : ℝ) < (CONFIG.particleCount : ℝ) := by
    exact_mod_cast (Nat.zero_lt_of_lt hi)
  have hiN : (i : ℝ) < (CONFIG.particleCount : ℝ) := by exact_mod_cast hi
  have hi0 : (0 : ℝ) ≤ (i : ℝ) := Nat.cast_nonneg i
  have hq0 : 0 ≤ (i : ℝ) / (CONFIG.particleCount : ℝ) := div_nonneg hi0 hN.le
  have hq1 : (i : ℝ) / (CONFIG.particleCount : ℝ) ≤ 1 := (div_le_one hN).mpr hiN.le
  refine ⟨fun rnd1 rnd2 k1 k2 => calculateShapeLoop_helix rnd1 rnd2 _ 0 k1 k2,
    helix_y i hi, ?_, ?_, ?_, ?_, ?_⟩
  · intro j hj
    rw [helix_y i hi, helix_y j (lt_of_le_of_lt hj hi)]
    have hji : (j : ℝ) ≤ (i : ℝ) := by exact_mod_cast hj
    have := div_le_div_of_nonneg_right hji hN.le
    rw [mul_div_assoc, mul_div_assoc]
    linarith
  · rw [helix_y 0 (Nat.zero_lt_of_lt hi)]
    simp
  · rw [helix_y i hi, mul_div_assoc]
    linarith
  · rw [helix_y i hi, mul_div_assoc]
    linarith
  · rw [axisDistance, helix_axis, sqrt_100]

/-- C10. For the view size that `updateViewSize` computes from any camera
(height `2 * tan(fov/2) * distance`, width `height * aspect`), `onResults` maps
an index fingertip at the image centre `(0.5, 0.5)` to the world origin
`(0, 0, 0)`; a fingertip at `(x, y)` is mapped to
`((0.5 - x) * width, (0.5 - y) * height, 0)`, and the cursor moves to
`old + 0.3 * (mapped - old)`. -/
theorem image_centre_maps_to_origin (rnd : ℕ → ℝ) (camera : Camera) (s : State) (f : Hand) :
    (updateViewSize camera s).viewSize.height
      = 2 * Real.tan (camera.fov * (Real.pi / 180) / 2) * camera.positionZ ∧
    (updateViewSize camera s).viewSize.width
      = (updateViewSize camera s).viewSize.height * camera.aspect ∧
    mapIndexTip (updateViewSize camera s).viewSize ⟨0.5, 0.5⟩ = ⟨0, 0, 0⟩ ∧
    mapIndexTip (updateViewSize camera s).viewSize f.indexTip
      = ⟨(0.5 - f.indexTip.x) * (updateViewSize camera s).viewSize.width,
         (0.5 - f.indexTip.y) * (updateViewSize camera s).viewSize.height, 0⟩ ∧
    (onResults rnd (updateViewSize camera s) (some f)).handPosition
      = (updateViewSize camera s).handPosition.add
          (Vec3.smul 0.3 ((mapIndexTip (updateViewSize camera s).viewSize f.indexTip).sub
            (updateViewSize camera s).handPosition)) := by
  refine ⟨rfl, rfl, ?_, rfl, ?_⟩
  · simp [mapIndexTip]
  · rw [onResults_handPosition]
    simp only [Vec3.lerp, Vec3.add, Vec3.smul, Vec3.sub]
    ext <;> simp <;> ring

/-- C6 (the code departs from it). `animate` computes the local hand position by
rotating the world position about the Y axis by `+rotationY` in the renderer's
convention, not by `-rotationY`: rotating the result the way the renderer
rotates the cloud gives the hand position rotated by `2 * rotationY`, whereas
the rotation by `-rotationY` is the inverse.  At
elapsed time `10 * π` (`rotationY = π / 2`) and the start position
`(1000, 1000, 1000)` of the hand, the local point is `(1000, 1000, -1000)` and
rotating it back gives `(-1000, 1000, -1000)`, not the hand position. -/
theorem localHand_is_forward_rotation :
    (∀ (time : ℝ) (h : Vec3), localHand time h = rotateY (time * 0.05) h) ∧
    (∀ (time : ℝ) (h : Vec3),
      rotateY (time * 0.05) (localHand time h) = rotateY (2 * (time * 0.05)) h) ∧
    (∀ (a : ℝ) (h : Vec3), rotateY a (rotateY (-a) h) = h) ∧
    localHand (10 * Real.pi) ⟨1000, 1000, 1000⟩ = ⟨1000, 1000, -1000⟩ ∧
    rotateY (10 * Real.pi * 0.05) (localHand (10 * Real.pi) ⟨1000, 1000, 1000⟩)
      = ⟨-1000, 1000, -1000⟩ ∧
    rotateY (10 * Real.pi * 0.05) (localHand (10 * Real.pi) ⟨1000, 1000, 1000⟩)
      ≠ ⟨1000, 1000, 1000⟩ := by
  have ha : 10 * Real.pi * 0.05 = Real.pi / 2 := by ring
  have hl : localHand (10 * Real.pi) ⟨1000, 1000, 1000⟩ = ⟨1000, 1000, -1000⟩ := by
    rw [localHand_eq_rotateY, ha]
    simp only [rotateY, Real.cos_pi_div_two, Real.sin_pi_div_two]
    ext <;> norm_num
  have hr : rotateY (10 * Real.pi * 0.05) (localHand (10 * Real.pi) ⟨1000, 1000, 1000⟩)
      = ⟨-1000, 1000, -1000⟩ := by
    rw [hl, ha]
    simp only [rotateY, Real.cos_pi_div_two, Real.sin_pi_div_two]
    ext <;> norm_num
  refine ⟨localHand_eq_rotateY, ?_, ?_, hl, hr, ?_⟩
  · intro time h
    rw [localHand_eq_rotateY]
    simp only [rotateY, Real.cos_two_mul, Real.sin_two_mul]
    have hc := Real.sin_sq_add_cos_sq (time * 0.05)
    ext
    · simp only; linear_combination (-h.x) * hc
    · rfl
    · simp only; linear_combination (-h.z) * hc
  · intro a h
    simp only [rotateY, Real.cos_neg, Real.sin_neg]
    have hc := Real.sin_sq_add_cos_sq a
    ext
    · simp only; linear_combination h.x * hc
    · rfl
    · simp only; linear_combination h.z * hc
  rw [hr]
  intro h
  have := congrArg Vec3.x h
  norm_num at this

/-- C3. The per-particle step of `animate`.  With `d = |p - c|` and
`force = (25 - d) / 25`, the new velocity is `0.92 * (v + 0.03 * (g - p))` when
`d^2 >= 625`, `0.92 * (v + 0.03 * (g - p) + 2.0 * force * (p - c))` when
`d^2 < 625` and pinching, and
`0.92 * (v + 0.03 * (g - p) - 0.8 * force * (p - c) + j)` when `d^2 < 625` and
not pinching, where `j` is the turbulence, each component of which lies in
`[-0.25, 0.25)` for draws in `[0, 1)`; the new position is `p` plus the new
velocity. -/
theorem stepParticle_reference (rnd : ℕ → ℝ) (k : ℕ) (c : Vec3) (pinch : Bool) (p g v : Vec3)
    (hdraws : UnitDraws rnd) :
    ((-0.25 ≤ (jitter rnd k).x ∧ (jitter rnd k).x < 0.25) ∧
     (-0.25 ≤ (jitter rnd k).y ∧ (jitter rnd k).y < 0.25) ∧
     (-0.25 ≤ (jitter rnd k).z ∧ (jitter rnd k).z < 0.25)) ∧
    ((p.sub c).norm ^ 2 ≥ 625 →
      (stepParticle rnd c pinch p g v k).2.1
        = Vec3.smul 0.92 (v.add (Vec3.smul 0.03 (g.sub p)))) ∧
    ((p.sub c).norm ^ 2 < 625 → pinch = true →
      (stepParticle rnd c pinch p g v k).2.1
        = Vec3.smul 0.92 ((v.add (Vec3.smul 0.03 (g.sub p))).add
            (Vec3.smul (2.0 * ((25 - (p.sub c).norm) / 25)) (p.sub c)))) ∧
    ((p.sub c).norm ^ 2 < 625 → pinch = false →
      (stepParticle rnd c pinch p g v k).2.1
        = Vec3.smul 0.92 (((v.add (Vec3.smul 0.03 (g.sub p))).sub
            (Vec3.smul (0.8 * ((25 - (p.sub c).norm) / 25)) (p.sub c))).add (jitter rnd k))) ∧
    (stepParticle rnd c pinch p g v k).1 = p.add (stepParticle rnd c pinch p g v k).2.1 := by
  refine ⟨jitter_range rnd k hdraws, ?_, ?_, ?_, stepParticle_position rnd c pinch p g v k⟩
  · intro hfar
    rw [stepParticle_far rnd c pinch p g v k hfar]
  · intro hnear hp
    rw [hp]
    exact stepParticle_repel rnd c p g v k hnear
  · intro hnear hp
    rw [hp]
    exact stepParticle_attract rnd c p g v k hnear

/-- C4. A particle of `animate` whose position equals its target and whose
velocity is zero, with the local-frame cursor farther than `interactionRadius`
from it, keeps its position and its zero velocity after one frame, whatever the
pinch flag is. -/
theorem rest_state_fixed_point (rnd : ℕ → ℝ) (time : ℝ) (s : State) (i : ℕ) (p : Vec3)
    (hp : s.positions[i]? = some p) (ht : s.targetPositions[i]? = some p)
    (hv : s.velocities[i]? = some ⟨0, 0, 0⟩)
    (hfar : CONFIG.interactionRadius < (p.sub (localHand time s.handPosition)).norm) :
    (animate rnd time s).positions[i]? = some p ∧
    (animate rnd time s).velocities[i]? = some ⟨0, 0, 0⟩ ∧
    ∀ (pinch : Bool) (k : ℕ),
      stepParticle rnd (localHand time s.handPosition) pinch p p ⟨0, 0, 0⟩ k
        = (p, ⟨0, 0, 0⟩, k) := by
  have hsq : 625 ≤ (p.sub (localHand time s.handPosition)).norm ^ 2 := by
    have h25 : (25 : ℝ) < (p.sub (localHand time s.handPosition)).norm := by
      simpa [CONFIG.interactionRadius] using hfar
    nlinarith
  have hstep : ∀ (pinch : Bool) (k : ℕ),
      stepParticle rnd (localHand time s.handPosition) pinch p p ⟨0, 0, 0⟩ k
        = (p, ⟨0, 0, 0⟩, k) := by
    intro pinch k
    rw [stepParticle_far rnd _ pinch p p _ k hsq]
    refine Prod.ext ?_ (Prod.ext ?_ rfl) <;> ext <;> simp [Vec3.add, Vec3.smul, Vec3.sub]
  obtain ⟨k2, h1, h2⟩ := animateLoop_getElem rnd (localHand time s.handPosition) s.isPinching
    s.positions s.targetPositions s.velocities s.draws i p p ⟨0, 0, 0⟩ hp ht hv
  rw [hstep] at h1 h2
  exact ⟨h1, h2, hstep⟩

/-- C5, the claim as stated fails.  A particle at its target `(1, 0, 0)`, at
distance `1` from the cursor at the origin, with zero turbulence: moving towards
the cursor with velocity `(-10, 0, 0)` and not pinching, its radial velocity
component after the step is not more negative than before (damping outweighs
the pull); moving away with velocity `(30, 0, 0)` and pinching, its radial
component after the step is not more positive than before. -/
theorem radial_claim_counterexample :
    (Vec3.sub ⟨1, 0, 0⟩ ⟨0, 0, 0⟩).norm < 25 ∧
    jitter halfDraws 0 = ⟨0, 0, 0⟩ ∧
    ¬ (radialComponent ⟨0, 0, 0⟩ ⟨1, 0, 0⟩
          (stepParticle halfDraws ⟨0, 0, 0⟩ false ⟨1, 0, 0⟩ ⟨1, 0, 0⟩ ⟨-10, 0, 0⟩ 0).2.1
        < radialComponent ⟨0, 0, 0⟩ ⟨1, 0, 0⟩ ⟨-10, 0, 0⟩) ∧
    ¬ (radialComponent ⟨0, 0, 0⟩ ⟨1, 0, 0⟩ ⟨30, 0, 0⟩
        < radialComponent ⟨0, 0, 0⟩ ⟨1, 0, 0⟩
          (stepParticle halfDraws ⟨0, 0, 0⟩ true ⟨1, 0, 0⟩ ⟨1, 0, 0⟩ ⟨30, 0, 0⟩ 0).2.1) := by
  have h1 := unit_norm
  refine ⟨by rw [h1]; norm_num, jitter_halfDraws 0, ?_, ?_⟩
  · rw [radial_attract halfDraws 0 _ _ _ _ (jitter_halfDraws 0) (by rw [h1]; norm_num)
      (by rw [h1]; norm_num), h1]
    simp only [radialComponent, h1]
    norm_num [Vec3.dot, Vec3.smul, Vec3.add, Vec3.sub]
  · rw [radial_repel halfDraws 0 _ _ _ _ (by rw [h1]; norm_num) (by rw [h1]; norm_num), h1]
    simp only [radialComponent, h1]
    norm_num [Vec3.dot, Vec3.smul, Vec3.add, Vec3.sub]

/-- C5, amended.  For a particle at distance `0 < d < 25` from the local-frame
cursor, with zero turbulence and `force = (25 - d) / 25`, the radial component
of its velocity after one step is that of `0.92 * (v + 0.03 * (g - p))` (the
step without hand interaction) minus `0.92 * 0.8 * force * d` when not pinching
and plus `0.92 * 2 * force * d` when pinching, hence strictly smaller,
respectively strictly larger, than without the interaction; in particular, for
a particle at rest at its target, it is more negative than before the step when
not pinching and more positive when pinching. -/
theorem radial_interaction_direction (rnd : ℕ → ℝ) (k : ℕ) (c p g v : Vec3)
    (hjit : jitter rnd k = ⟨0, 0, 0⟩) (hpos : 0 < (p.sub c).norm)
    (hd : (p.sub c).norm < 25) :
    radialComponent c p (stepParticle rnd c false p g v k).2.1
      = radialComponent c p (Vec3.smul 0.92 (v.add (Vec3.smul 0.03 (g.sub p))))
        - 0.92 * 0.8 * ((25 - (p.sub c).norm) / 25) * (p.sub c).norm ∧
    radialComponent c p (stepParticle rnd c false p g v k).2.1
      < radialComponent c p (Vec3.smul 0.92 (v.add (Vec3.smul 0.03 (g.sub p)))) ∧
    radialComponent c p (stepParticle rnd c true p g v k).2.1
      = radialComponent c p (Vec3.smul 0.92 (v.add (Vec3.smul 0.03 (g.sub p))))
        + 0.92 * 2.0 * ((25 - (p.sub c).norm) / 25) * (p.sub c).norm ∧
    radialComponent c p (Vec3.smul 0.92 (v.add (Vec3.smul 0.03 (g.sub p))))
      < radialComponent c p (stepParticle rnd c true p g v k).2.1 ∧
    (g = p → v = ⟨0, 0, 0⟩ →
      radialComponent c p (stepParticle rnd c false p g v k).2.1 < radialComponent c p v ∧
      radialComponent c p v < radialComponent c p (stepParticle rnd c true p g v k).2.1) := by
  have ha := radial_attract rnd k c p g v hjit hpos hd
  have hr := radial_repel rnd k c p g v hpos hd
  have hf : 0 < ((25 - (p.sub c).norm) / 25) * (p.sub c).norm :=
    mul_pos (div_pos (by linarith) (by norm_num)) hpos
  have hlt : radialComponent c p (stepParticle rnd c false p g v k).2.1
      < radialComponent c p (Vec3.smul 0.92 (v.add (Vec3.smul 0.03 (g.sub p)))) := by
    rw [ha]; nlinarith
  have hgt : radialComponent c p (Vec3.smul 0.92 (v.add (Vec3.smul 0.03 (g.sub p))))
      < radialComponent c p (stepParticle rnd c true p g v k).2.1 := by
    rw [hr]; nlinarith
  refine ⟨ha, hlt, hr, hgt, ?_⟩
  intro hg hv
  subst hg hv
  obtain ⟨e1, e2⟩ := radial_rest c g
  rw [e1] at hlt hgt
  rw [e2]
  exact ⟨hlt, hgt⟩

/-- C7, the claim as stated fails.  The set of branch draws in `[0, 1)` for
which `Shapes.saturn` returns a flat-ring point does not have length `0.6`, and
the set for which it returns a core point does not have length `0.4`; at the
branch draw `0.5` the generator returns a core point, of norm `10`. -/
theorem saturn_weights_counterexample :
    MeasureTheory.volume saturnRingDraws ≠ ENNReal.ofReal 0.6 ∧
    MeasureTheory.volume saturnCoreDraws ≠ ENNReal.ofReal 0.4 ∧
    IsCorePoint (Shapes.saturn halfDraws 0).1 ∧
    ¬ IsRingPoint (Shapes.saturn halfDraws 0).1 := by
  have hcore : (Shapes.saturn halfDraws 0).1.normSq = 100 :=
    saturn_core_normSq halfDraws 0 (by norm_num [halfDraws])
  refine ⟨?_, ?_, ?_, ?_⟩
  · rw [saturnRingDraws_volume, Ne, ENNReal.ofReal_eq_ofReal_iff (by norm_num) (by norm_num)]
    norm_num
  · rw [saturnCoreDraws_volume, Ne, ENNReal.ofReal_eq_ofReal_iff (by norm_num) (by norm_num)]
    norm_num
  · rw [IsCorePoint, Vec3.norm, hcore, sqrt_100]
  · intro hring
    have hle := axisDistance_le_norm (Shapes.saturn halfDraws 0).1
    rw [Vec3.norm, hcore, sqrt_100] at hle
    have := hring.1
    linarith

/-- C7, amended.  With the branch draw `r` of `Shapes.saturn` in `[0, 1)`, the
generator returns a flat-ring point (distance from the Y axis in `[16, 28)`,
height at most `0.25` in absolute value) exactly for `r` in `[0, 0.4]`, a set
of length `0.4`, and a core point (norm `10`) exactly for `r` in `(0.4, 1)`, a
set of length `0.6`. -/
theorem saturn_mixture_weights :
    saturnRingDraws = Set.Icc 0 0.4 ∧
    MeasureTheory.volume saturnRingDraws = ENNReal.ofReal 0.4 ∧
    saturnCoreDraws = Set.Ioo 0.4 1 ∧
    MeasureTheory.volume saturnCoreDraws = ENNReal.ofReal 0.6 :=
  ⟨saturnRingDraws_eq, saturnRingDraws_volume, saturnCoreDraws_eq, saturnCoreDraws_volume⟩

/-! ## Instances of the properties at sample inputs -/

theorem pinch_edge_detection_witness :
    (State.init halfDraws sampleCamera).isPinching = false ∧
    List.map pinchDistance (List.map frameOfDistance [0.08, 0.03, 0.03, 0.08])
      = [0.08, 0.03, 0.03, 0.08] ∧
    (runFrames halfDraws (State.init halfDraws sampleCamera)
        (List.map frameOfDistance [0.08, 0.03, 0.03, 0.08])).switchCalls
      = (State.init halfDraws sampleCamera).switchCalls + 1 ∧
    (runFrames halfDraws (State.init halfDraws sampleCamera)
        (List.map frameOfDistance [0.08, 0.03, 0.03, 0.08])).isPinching = false :=
  ⟨rfl, sample_frames_distances,
    ((pinch_edge_detection halfDraws (State.init halfDraws sampleCamera)
      (List.map frameOfDistance [0.08, 0.03, 0.03, 0.08]) rfl).2.2
        sample_frames_distances).2.2.2⟩

theorem switchShape_cycle_witness :
    restState.currentShapeIndex < 5 ∧
    ((switchShape halfDraws)^[5] restState).currentShapeIndex = restState.currentShapeIndex ∧
    ((switchShape halfDraws)^[3] restState).currentShapeIndex ≠ restState.currentShapeIndex :=
  ⟨by simp [restState],
    (switchShape_cycle halfDraws restState (by simp [restState])).2.2.1,
    ((switchShape_cycle halfDraws restState (by simp [restState])).2.2.2.2 3
      (by norm_num) (by norm_num)).1⟩

theorem stepParticle_reference_witness :
    UnitDraws halfDraws ∧
    (Vec3.sub ⟨1, 0, 0⟩ ⟨0, 0, 0⟩).norm ^ 2 < 625 ∧
    (stepParticle halfDraws ⟨0, 0, 0⟩ false ⟨1, 0, 0⟩ ⟨20, 0, 0⟩ ⟨0, 0, 0⟩ 0).2.1
      = Vec3.smul 0.92 (((Vec3.add ⟨0, 0, 0⟩ (Vec3.smul 0.03 (Vec3.sub ⟨20, 0, 0⟩ ⟨1, 0, 0⟩))).sub
          (Vec3.smul (0.8 * ((25 - (Vec3.sub ⟨1, 0, 0⟩ ⟨0, 0, 0⟩).norm) / 25))
            (Vec3.sub ⟨1, 0, 0⟩ ⟨0, 0, 0⟩))).add (jitter halfDraws 0)) :=
  ⟨unitDraws_halfDraws, by rw [unit_norm]; norm_num,
    (stepParticle_reference halfDraws 0 ⟨0, 0, 0⟩ false ⟨1, 0, 0⟩ ⟨20, 0, 0⟩ ⟨0, 0, 0⟩
      unitDraws_halfDraws).2.2.2.1 (by rw [unit_norm]; norm_num) rfl⟩

theorem rest_state_fixed_point_witness :
    restState.positions[0]? = some ⟨20, 0, 0⟩ ∧
    restState.targetPositions[0]? = some ⟨20, 0, 0⟩ ∧
    restState.velocities[0]? = some ⟨0, 0, 0⟩ ∧
    CONFIG.interactionRadius
      < (Vec3.sub ⟨20, 0, 0⟩ (localHand 0 restState.handPosition)).norm ∧
    (animate halfDraws 0 restState).positions[0]? = some ⟨20, 0, 0⟩ ∧
    (animate halfDraws 0 restState).velocities[0]? = some ⟨0, 0, 0⟩ :=
  have h := restState_getElem 0 (by norm_num [CONFIG.particleCount])
  ⟨h.1, h.2.1, h.2.2, restState_far,
    (rest_state_fixed_point halfDraws 0 restState 0 ⟨20, 0, 0⟩ h.1 h.2.1 h.2.2
      restState_far).1,
    (rest_state_fixed_point halfDraws 0 restState 0 ⟨20, 0, 0⟩ h.1 h.2.1 h.2.2
      restState_far).2.1⟩

theorem radial_interaction_direction_witness :
    jitter halfDraws 0 = ⟨0, 0, 0⟩ ∧
    0 < (Vec3.sub ⟨1, 0, 0⟩ ⟨0, 0, 0⟩).norm ∧
    (Vec3.sub ⟨1, 0, 0⟩ ⟨0, 0, 0⟩).norm < 25 ∧
    radialComponent ⟨0, 0, 0⟩ ⟨1, 0, 0⟩
        (stepParticle halfDraws ⟨0, 0, 0⟩ false ⟨1, 0, 0⟩ ⟨20, 0, 0⟩ ⟨-10, 0, 0⟩ 0).2.1
      < radialComponent ⟨0, 0, 0⟩ ⟨1, 0, 0⟩
        (Vec3.smul 0.92 (Vec3.add ⟨-10, 0, 0⟩ (Vec3.smul 0.03 (Vec3.sub ⟨20, 0, 0⟩ ⟨1, 0, 0⟩)))) :=
  ⟨jitter_halfDraws 0, by rw [unit_norm]; norm_num, by rw [unit_norm]; norm_num,
    (radial_interaction_direction halfDraws 0 ⟨0, 0, 0⟩ ⟨1, 0, 0⟩ ⟨20, 0, 0⟩ ⟨-10, 0, 0⟩
      (jitter_halfDraws 0) (by rw [unit_norm]; norm_num) (by rw [unit_norm]; norm_num)).2.1⟩

theorem sphere_targets_norm_witness :
    UnitDraws halfDraws ∧ (Shapes.sphere halfDraws 0).1.norm = 20 :=
  ⟨unitDraws_halfDraws, (sphere_targets_norm halfDraws 0 unitDraws_halfDraws).2.1⟩

theorem helix_deterministic_linear_witness :
    3 < CONFIG.particleCount ∧
    (Shapes.helix 3).y = 45 * ((3 : ℕ) : ℝ) / (CONFIG.particleCount : ℝ) - 22.5 :=
  ⟨by norm_num [CONFIG.particleCount],
    (helix_deterministic_linear 3 (by norm_num [CONFIG.particleCount])).2.1⟩

end

end InteractiveParticles
